/-
Verification of the natural-language specification of the `data_selection`
notebook (juanjq/cta-lstchain) against its code.

The notebook loads night-wise DL1 datacheck tables, builds boolean filter
masks over the run-wise summary table, and prints the surviving run numbers.
We embed the tables as lists of records over ℚ (the float comparisons and
arithmetic of the notebook become exact rational arithmetic; a float NaN is
modelled by `Option.none` in the two columns where the notebook handles
non-finite values).  External library functions that the notebook merely
calls — the astropy angular separation, the moon ephemeris, astroplan's
`moon_illumination`, and `np.std` — are abstracted as parameters, since
their code is not part of this repository; everything the notebook itself
computes is translated directly.
-/
import Mathlib

namespace DataSelection

/- Batteries marks the rational-number operations irreducible; concrete
evaluation of the embedded notebook needs them to unfold. -/
attribute [local semireducible] Rat.mul Rat.inv Rat.add Rat.sub Rat.ofScientific

/-- One row of the run-wise `runsummary` table, with the columns the
notebook reads.  `num_pedestals` and `num_flatfield` may be NaN in the
files (`none`); all other columns used by the notebook are finite floats,
modelled as ℚ.  `min_altitude` is in radians, as in the files. -/
structure RunRow where
  runnumber : ℤ
  time : ℚ
  elapsed_time : ℚ
  mean_ra : ℚ
  mean_dec : ℚ
  min_altitude : ℚ
  num_cosmics : ℚ
  num_pedestals : Option ℚ
  num_flatfield : Option ℚ
  ped_charge_stddev : ℚ
  cosmics_fraction_pulses_above10 : ℚ
  cosmics_fraction_pulses_above30 : ℚ
  deriving DecidableEq, Repr

/-- One row of the subrun-wise `cosmics` table (columns the notebook reads). -/
structure CosmicsRow where
  runnumber : ℤ
  events : ℚ
  elapsed_time : ℚ
  fraction_pulses_above10 : ℚ
  fraction_pulses_above30 : ℚ
  deriving DecidableEq, Repr

/-- A row of one of the other subrun-wise tables (`pixwise_runsummary`,
`flatfield`, `pedestals`); the notebook only stacks these tables and never
reads their columns beyond plotting, so we keep the run number. -/
structure SubrunRow where
  runnumber : ℤ
  deriving DecidableEq, Repr

/-- The value of the float64 constant π used by `np.rad2deg`
(the IEEE-754 double nearest to π, as an exact rational). -/
def piF64 : ℚ := 884279719003555 / 281474976710656

/-- `np.rad2deg`: multiply by 180/π. -/
def rad2deg (x : ℚ) : ℚ := x * (180 / piF64)

/-! ### The filter thresholds, as set in the notebook cells -/

def min_zenith : ℚ := 0
def max_zenith : ℚ := 35
def max_ped_std : ℚ := 2
def moon_fraction_limit : ℚ := 1/5
def max_rate30_std : ℚ := 1/5

/-! ### Row-wise filter predicates

Each mask of the notebook is a boolean array over the rows of
`dcheck_runsummary`; we give the per-row predicate and the array as its
map over the table.  `sep` is the external
`source_coordinates.separation(telescope_pointing)` in degrees, a function
of the row's `mean_ra`/`mean_dec` columns. -/

/-- `source_mask = (angular_distance > 0.35 deg) & (angular_distance < 0.45 deg)` -/
def sourcePred (sep : ℚ → ℚ → ℚ) (r : RunRow) : Bool :=
  (35/100 < sep r.mean_ra r.mean_dec) && (sep r.mean_ra r.mean_dec < 45/100)

/-- `zenith_mask = (90 - rad2deg(min_altitude) < max_zenith) & (90 - rad2deg(min_altitude) > min_zenith)` -/
def zenithPred (r : RunRow) : Bool :=
  (90 - rad2deg r.min_altitude < max_zenith) && (min_zenith < 90 - rad2deg r.min_altitude)

/-- `ped_ok_mask = np.isfinite(num_pedestals)` -/
def pedOkPred (r : RunRow) : Bool := r.num_pedestals.isSome

/-- `ped_std_cut = ped_charge_stddev < max_ped_std` -/
def pedStdPred (r : RunRow) : Bool := r.ped_charge_stddev < max_ped_std

/-- `rate_cosmics = num_cosmics / elapsed_time` -/
def rate_cosmics (r : RunRow) : ℚ := r.num_cosmics / r.elapsed_time

/-- `rate_mask = rate_cosmics > 3000` -/
def ratePred (r : RunRow) : Bool := 3000 < rate_cosmics r

/-- The derived rate of pulses above 10 p.e.:
`cosmics_fraction_pulses_above10 * num_cosmics / elapsed_time` -/
def rate10 (r : RunRow) : ℚ :=
  r.cosmics_fraction_pulses_above10 * r.num_cosmics / r.elapsed_time

/-- The derived rate of pulses above 30 p.e. -/
def rate30 (r : RunRow) : ℚ :=
  r.cosmics_fraction_pulses_above30 * r.num_cosmics / r.elapsed_time

/-- `rate10_mask = (... ) > 25` -/
def rate10Pred (r : RunRow) : Bool := 25 < rate10 r

/-- `rate30_mask = (... ) > 4.5` -/
def rate30Pred (r : RunRow) : Bool := 9/2 < rate30 r

/-- `pix_rate_mask = rate10_mask & rate30_mask` -/
def pixRatePred (r : RunRow) : Bool := rate10Pred r && rate30Pred r

/-! ### Mask arrays and their combination -/

/-- A mask of the notebook as a boolean array over the table. -/
def maskArr (p : RunRow → Bool) (rs : List RunRow) : List Bool := rs.map p

/-- Elementwise `&` of two numpy boolean arrays. -/
def andMask (a b : List Bool) : List Bool := List.zipWith and a b

/-- Numpy boolean-array indexing `table[mask]`. -/
def maskSelect {α : Type} : List α → List Bool → List α
  | x :: xs, b :: bs => if b then x :: maskSelect xs bs else maskSelect xs bs
  | _, _ => []

/-- The mask of the final cell of the notebook (also printed at cell 46):
`source_mask & zenith_mask & ped_ok_mask & ped_std_cut & rate_mask & pix_rate_mask`. -/
def finalMaskArr (sep : ℚ → ℚ → ℚ) (rs : List RunRow) : List Bool :=
  andMask (andMask (andMask (andMask (andMask
    (maskArr (sourcePred sep) rs) (maskArr zenithPred rs))
    (maskArr pedOkPred rs)) (maskArr pedStdPred rs))
    (maskArr ratePred rs)) (maskArr pixRatePred rs)

/-- The conjunction of the six per-row predicates that the final mask is
built from. -/
def finalPred (sep : ℚ → ℚ → ℚ) (r : RunRow) : Bool :=
  sourcePred sep r && zenithPred r && pedOkPred r && pedStdPred r &&
    ratePred r && pixRatePred r

theorem andMask_maskArr (p q : RunRow → Bool) (rs : List RunRow) :
    andMask (maskArr p rs) (maskArr q rs) = maskArr (fun r => p r && q r) rs := by
  induction rs with
  | nil => rfl
  | cons r rs ih => simp [andMask, maskArr] at ih ⊢

theorem finalMaskArr_eq_map (sep : ℚ → ℚ → ℚ) (rs : List RunRow) :
    finalMaskArr sep rs = maskArr (finalPred sep) rs := by
  unfold finalMaskArr finalPred
  rw [andMask_maskArr, andMask_maskArr, andMask_maskArr, andMask_maskArr,
    andMask_maskArr]

theorem maskSelect_map (p : RunRow → Bool) (rs : List RunRow) :
    maskSelect rs (maskArr p rs) = rs.filter p := by
  induction rs with
  | nil => rfl
  | cons r rs ih =>
      by_cases h : p r <;> simp [maskSelect, maskArr, List.filter_cons, h] at ih ⊢ <;>
        simpa [maskArr] using ih

/-! ### The reporting function `print_runs` -/

/-- `datetime.utcfromtimestamp(t - 0.5*86400).date()`, as the number of whole
days since the Unix epoch of the shifted timestamp. -/
def utcDateOf (t : ℚ) : ℤ := ⌊(t - 43200) / 86400⌋

/-- `np.unique` on a list of dates: sorted ascending, without duplicates. -/
def uniqueSorted (l : List ℤ) : List ℤ := (l.insertionSort (· ≤ ·)).dedup

/-- The text that one call of `print_runs` produces, structured: the printed
run count (`mask.sum()`), the printed observation time in hours, the printed
run-number array, and — when `by_date` is set — the printed date groups in
the order the loop prints them, each with its list `rr` of run numbers. -/
structure PrintOut where
  nRuns : ℕ
  hours : ℚ
  runs : List ℤ
  byDate : List (ℤ × List ℤ)
  deriving DecidableEq, Repr

/-- The `by_date` branch of `print_runs`: for each distinct date (in
`np.unique` order) the list `rr` of run numbers of the selected rows whose
date matches. -/
def byDateGroups (sel : List RunRow) : List (ℤ × List ℤ) :=
  (uniqueSorted (sel.map (fun r => utcDateOf r.time))).map (fun d =>
    (d, (sel.filter (fun r => utcDateOf r.time == d)).map (·.runnumber)))

/-- The `print_runs` function of the notebook. -/
def print_runs (table : List RunRow) (mask : List Bool) (by_date : Bool) : PrintOut :=
  let sel := maskSelect table mask
  { nRuns := mask.count true
    hours := (sel.map (·.elapsed_time)).sum / 3600
    runs := sel.map (·.runnumber)
    byDate := if by_date then byDateGroups sel else [] }

/-! ### Loading the night-wise files -/

/-- One night-wise DL1 datacheck HDF5 file: whether the `pedestals` and
`flatfield` nodes are present in its root, and its five tables. -/
structure NightFile where
  hasPedestalsNode : Bool
  hasFlatfieldNode : Bool
  pixwise_runsummary : List SubrunRow
  runsummary : List RunRow
  cosmics : List CosmicsRow
  flatfield : List SubrunRow
  pedestals : List SubrunRow
  deriving DecidableEq, Repr

/-- The check at the top of the loading loop: a file is skipped (`continue`)
unless both the `pedestals` and the `flatfield` table are present. -/
def keepFile (f : NightFile) : Bool := f.hasPedestalsNode && f.hasFlatfieldNode

/-- `table['num_flatfield'] = np.where(np.isnan(table['num_flatfield']), 0, table['num_flatfield'])` -/
def normalizeRunRow (r : RunRow) : RunRow :=
  { r with num_flatfield := some (r.num_flatfield.getD 0) }

/-- The five concatenated in-memory tables. -/
structure Tables where
  pixwise_runsummary : List SubrunRow
  runsummary : List RunRow
  cosmics : List CosmicsRow
  flatfield : List SubrunRow
  pedestals : List SubrunRow
  deriving DecidableEq, Repr

/-- The loading loop followed by `vstack`: skip files missing a table,
replace NaN `num_flatfield` by 0, and concatenate each table vertically. -/
def loadFiles (files : List NightFile) : Tables :=
  let kept := files.filter keepFile
  { pixwise_runsummary := (kept.map (·.pixwise_runsummary)).flatten
    runsummary := (kept.map (fun f => f.runsummary.map normalizeRunRow)).flatten
    cosmics := (kept.map (·.cosmics)).flatten
    flatfield := (kept.map (·.flatfield)).flatten
    pedestals := (kept.map (·.pedestals)).flatten }

/-! ### The moon criterion

The notebook computes the moon's horizontal position and illumination with
astropy/astroplan (external library code); we take the resulting per-run
values as functions `moonAlt`, `moonFrac` of the row.  The notebook uses
them only in diagnostic scatter plots, partitioned by
`no_moon = moon_altaz.alt < 0` and `moon_fraction < moon_fraction_limit`. -/

/-- `no_moon`: moon below the horizon for this run. -/
def noMoonPred (moonAlt : RunRow → ℚ) (r : RunRow) : Bool := moonAlt r < 0

/-- The moon-illumination criterion of the notebook's diagnostic plots: the
moon is below the horizon, or illuminated less than `moon_fraction_limit`. -/
def moonOkPred (moonAlt moonFrac : RunRow → ℚ) (r : RunRow) : Bool :=
  noMoonPred moonAlt r || (moonFrac r < moon_fraction_limit)

/-! ### The pulse-30 stability cut (last cells of the notebook) -/

/-- `run_list = np.array(dcheck_runsummary['runnumber'][mask])` with `mask`
the final mask. -/
def run_list (sep : ℚ → ℚ → ℚ) (rs : List RunRow) : List ℤ :=
  (maskSelect rs (finalMaskArr sep rs)).map (·.runnumber)

/-- Subrun-wise `fraction_pulses_above30 * events / elapsed_time` from the
`cosmics` table. -/
def rate30Subrun (c : CosmicsRow) : ℚ :=
  c.fraction_pulses_above30 * c.events / c.elapsed_time

/-- `std_npe[1][i]`: `np.std` — abstracted as `stdFn`, external numpy code —
of the subrun-wise rate of >30 p.e. pulses over the subruns of `run`. -/
def std30 (stdFn : List ℚ → ℚ) (cs : List CosmicsRow) (run : ℤ) : ℚ :=
  stdFn ((cs.filter (fun c => c.runnumber == run)).map rate30Subrun)

/-- `pulse30_std_cut[dcheck_runsummary['runnumber'] == run] = False`. -/
def setFalseForRun (rs : List RunRow) (acc : List Bool) (run : ℤ) : List Bool :=
  List.zipWith (fun r b => if r.runnumber == run then false else b) rs acc

/-- The construction of `pulse30_std_cut`: initialized to `True` for every
row of `dcheck_runsummary`, then the loop over `run_list` clears the rows of
each run whose subrun-wise std dev of the >30 p.e. pulse rate is not below
`max_rate30_std`. -/
def pulse30Arr (stdFn : List ℚ → ℚ) (sep : ℚ → ℚ → ℚ)
    (rs : List RunRow) (cs : List CosmicsRow) : List Bool :=
  (run_list sep rs).foldl
    (fun acc run =>
      if std30 stdFn cs run < max_rate30_std then acc else setFalseForRun rs acc run)
    (rs.map (fun _ => true))

/-! ### The notebook's state, cell by cell

The filter phase of the notebook is a sequence of cells, each of which
assigns one mask variable computed from the in-memory tables.  We model the
interpreter state explicitly:  each cell is a function on states, so an
assignment to a table would be visible as a changed table field. -/

structure NBState where
  runsummary : List RunRow
  cosmics : List CosmicsRow
  pixwise_runsummary : List SubrunRow
  flatfield : List SubrunRow
  pedestals : List SubrunRow
  ped_ok_mask : List Bool
  source_mask : List Bool
  zenith_mask : List Bool
  ped_std_cut : List Bool
  rate_mask : List Bool
  pix_rate_mask : List Bool
  pulse30_std_cut : List Bool
  deriving Repr

/-- The five tables held by a state. -/
def NBState.tables (σ : NBState) : Tables :=
  { pixwise_runsummary := σ.pixwise_runsummary
    runsummary := σ.runsummary
    cosmics := σ.cosmics
    flatfield := σ.flatfield
    pedestals := σ.pedestals }

/-- Cell `ped_ok_mask = np.isfinite(...)`. -/
def stepPedOk (σ : NBState) : NBState :=
  { σ with ped_ok_mask := maskArr pedOkPred σ.runsummary }

/-- Cell `source_mask = ...`. -/
def stepSource (sep : ℚ → ℚ → ℚ) (σ : NBState) : NBState :=
  { σ with source_mask := maskArr (sourcePred sep) σ.runsummary }

/-- Cell `zenith_mask = ...`. -/
def stepZenith (σ : NBState) : NBState :=
  { σ with zenith_mask := maskArr zenithPred σ.runsummary }

/-- Cell `ped_std_cut = ...`. -/
def stepPedStd (σ : NBState) : NBState :=
  { σ with ped_std_cut := maskArr pedStdPred σ.runsummary }

/-- Cell `rate_mask = rate_cosmics > 3000`. -/
def stepRate (σ : NBState) : NBState :=
  { σ with rate_mask := maskArr ratePred σ.runsummary }

/-- Cell `pix_rate_mask = rate10_mask & rate30_mask`. -/
def stepPixRate (σ : NBState) : NBState :=
  { σ with pix_rate_mask := maskArr pixRatePred σ.runsummary }

/-- The last three cells: `run_list` from the stored masks, the subrun-wise
standard deviations, and the `pulse30_std_cut` loop. -/
def stepPulse30 (stdFn : List ℚ → ℚ) (σ : NBState) : NBState :=
  let mask := andMask (andMask (andMask (andMask (andMask
    σ.source_mask σ.zenith_mask) σ.ped_ok_mask) σ.ped_std_cut)
    σ.rate_mask) σ.pix_rate_mask
  let rl := (maskSelect σ.runsummary mask).map (·.runnumber)
  { σ with pulse30_std_cut :=
      (rl.foldl
        (fun acc run =>
          if std30 stdFn σ.cosmics run < max_rate30_std then acc
          else setFalseForRun σ.runsummary acc run)
        (σ.runsummary.map (fun _ => true))) }

/-- The whole filter phase, in the order of the notebook. -/
def filterPhase (sep : ℚ → ℚ → ℚ) (stdFn : List ℚ → ℚ) (σ : NBState) : NBState :=
  stepPulse30 stdFn (stepPixRate (stepRate (stepPedStd (stepZenith
    (stepSource sep (stepPedOk σ))))))

/-! ### Helper lemmas -/

theorem andMask_right_comm (a x y : List Bool) :
    andMask (andMask a x) y = andMask (andMask a y) x := by
  induction a generalizing x y with
  | nil => rfl
  | cons b a ih =>
      cases x with
      | nil => cases y <;> rfl
      | cons c x =>
          cases y with
          | nil => rfl
          | cons d y =>
              simp only [andMask, List.zipWith] at ih ⊢
              refine congrArg₂ _ ?_ (ih x y)
              cases b <;> cases c <;> cases d <;> rfl

theorem foldl_andMask_perm (a : List Bool) {l₁ l₂ : List (List Bool)}
    (h : l₁.Perm l₂) : l₁.foldl andMask a = l₂.foldl andMask a := by
  induction h generalizing a with
  | nil => rfl
  | cons x _ ih => simpa using ih (andMask a x)
  | swap x y l => simp [List.foldl_cons, andMask_right_comm]
  | trans _ _ ih₁ ih₂ => exact (ih₁ a).trans (ih₂ a)

theorem maskSelect_andMask_sublist {α : Type} (t : List α) (m e : List Bool) :
    (maskSelect t (andMask m e)).Sublist (maskSelect t m) := by
  induction t generalizing m e with
  | nil => simp [maskSelect]
  | cons x t ih =>
      cases m with
      | nil => simp [andMask, maskSelect]
      | cons b m =>
          cases e with
          | nil => simp [andMask, maskSelect]
          | cons c e =>
              cases b <;> cases c <;>
                simp only [andMask, List.zipWith, Bool.and_self, Bool.and_false,
                  Bool.and_true, Bool.false_and, Bool.true_and, maskSelect] <;>
                first
                  | exact ih m e
                  | exact (ih m e).trans (List.sublist_cons_self x _)
                  | exact (ih m e).cons₂ x

theorem setFalseForRun_map (rs : List RunRow) (g : RunRow → Bool) (run : ℤ) :
    setFalseForRun rs (rs.map g) run
      = rs.map (fun r => if r.runnumber == run then false else g r) := by
  unfold setFalseForRun
  rw [List.zipWith_map_right, List.zipWith_same]

/-- Closed form of the `pulse30_std_cut` loop, starting from any
row-pointwise initial array. -/
theorem foldl_pulse30 (stdFn : List ℚ → ℚ) (cs : List CosmicsRow)
    (rs : List RunRow) (l : List ℤ) (g : RunRow → Bool) :
    l.foldl
      (fun acc run =>
        if std30 stdFn cs run < max_rate30_std then acc
        else setFalseForRun rs acc run)
      (rs.map g)
    = rs.map (fun r => g r &&
        !(l.any (fun run => r.runnumber == run &&
            !(std30 stdFn cs run < max_rate30_std)))) := by
  induction l generalizing g with
  | nil => simp
  | cons run l ih =>
      by_cases h : std30 stdFn cs run < max_rate30_std
      · rw [List.foldl_cons, if_pos h, ih g]
        refine List.map_congr_left fun r _ => ?_
        simp [h]
      · rw [List.foldl_cons, if_neg h, setFalseForRun_map, ih]
        refine List.map_congr_left fun r _ => ?_
        by_cases hr : r.runnumber == run <;> simp [hr, h]

/-- The per-row value of `pulse30_std_cut`: a row is cleared exactly when
its run number is one of the selected runs whose subrun-wise std dev of the
>30 p.e. pulse rate is not below the maximum. -/
def pulse30Pointwise (stdFn : List ℚ → ℚ) (sep : ℚ → ℚ → ℚ)
    (rs : List RunRow) (cs : List CosmicsRow) (r : RunRow) : Bool :=
  !((run_list sep rs).any (fun run => r.runnumber == run &&
      !(std30 stdFn cs run < max_rate30_std)))

theorem pulse30Arr_eq_map (stdFn : List ℚ → ℚ) (sep : ℚ → ℚ → ℚ)
    (rs : List RunRow) (cs : List CosmicsRow) :
    pulse30Arr stdFn sep rs cs = rs.map (pulse30Pointwise stdFn sep rs cs) := by
  unfold pulse30Arr pulse30Pointwise
  rw [foldl_pulse30]
  simp

/-- Partitioning a list by a key: if every element's key is among the
pairwise-distinct keys `ds`, then concatenating the per-key filtered
sublists is a permutation of the list. -/
theorem flatten_filter_key_perm {α : Type} (key : α → ℤ) :
    ∀ (ds : List ℤ) (l : List α), ds.Nodup → (∀ a ∈ l, key a ∈ ds) →
      ((ds.map (fun d => l.filter (fun a => key a == d))).flatten).Perm l := by
  intro ds
  induction ds with
  | nil =>
      intro l _ hmem
      cases l with
      | nil => simp
      | cons a l => exact absurd (hmem a (by simp)) (by simp)
  | cons d ds ih =>
      intro l hnd hmem
      have hd : d ∉ ds := (List.nodup_cons.mp hnd).1
      have hnd' : ds.Nodup := (List.nodup_cons.mp hnd).2
      have hgroups : ds.map (fun d' => l.filter (fun a => key a == d'))
          = ds.map (fun d' =>
              (l.filter (fun a => !(key a == d))).filter (fun a => key a == d')) := by
        refine List.map_congr_left fun d' hd' => ?_
        rw [List.filter_filter]
        refine (List.filter_congr fun a _ => ?_).symm
        have hne : d' ≠ d := fun he => hd (he ▸ hd')
        by_cases hk : key a = d'
        · simp [hk, hne]
        · simp [hk]
      have hrest : (∀ a ∈ l.filter (fun a => !(key a == d)), key a ∈ ds) := by
        intro a ha
        rcases List.mem_filter.mp ha with ⟨hal, hneq⟩
        rcases List.mem_cons.mp (hmem a hal) with h | h
        · simp [h] at hneq
        · exact h
      have step1 : ((d :: ds).map (fun d' => l.filter (fun a => key a == d'))).flatten
          = l.filter (fun a => key a == d) ++
              (ds.map (fun d' => l.filter (fun a => key a == d'))).flatten := by
        simp
      rw [step1, hgroups]
      exact ((ih _ hnd' hrest).append_left _).trans (List.filter_append_perm _ l)

/-! ### Concrete example inputs -/

/-- An angular-separation function placing every pointing 0.4° from the
source (a wobble pointing). -/
def sepWobble : ℚ → ℚ → ℚ := fun _ _ => 2/5

/-- An angular-separation function placing every pointing on the source. -/
def sepZero : ℚ → ℚ → ℚ := fun _ _ => 0

/-- Moon 45° above the horizon for every run. -/
def moonUp : RunRow → ℚ := fun _ => 45

/-- Moon 90% illuminated for every run. -/
def moonBright : RunRow → ℚ := fun _ => 9/10

/-- A run that passes every mask the notebook conjoins into the final one:
wobble pointing (via `sepWobble`), altitude 1 rad (zenith ≈ 32.7°), finite
pedestals, pedestal noise 1 p.e., 4000 cosmics/s, pulse rates 40/s and
8/s. -/
def goodRow : RunRow :=
  { runnumber := 1, time := 0, elapsed_time := 1, mean_ra := 0, mean_dec := 0,
    min_altitude := 1, num_cosmics := 4000, num_pedestals := some 100,
    num_flatfield := some 0, ped_charge_stddev := 1,
    cosmics_fraction_pulses_above10 := 1/100,
    cosmics_fraction_pulses_above30 := 1/500 }

/-! ### The claims -/

/-- Following the spec's words: the conjunction of the six filters the spec
names — pointing direction, zenith angle, pedestal noise, cosmic-ray rate,
moon illumination, and pixel-rate stability. -/
def specSixFilters (sep : ℚ → ℚ → ℚ) (moonAlt moonFrac : RunRow → ℚ)
    (r : RunRow) : Bool :=
  sourcePred sep r && zenithPred r && pedStdPred r && ratePred r &&
    moonOkPred moonAlt moonFrac r && pixRatePred r

/-- C1 (counterexample): a run that passes every mask of the final cell but
has a bright moon above the horizon is printed in the final list even
though it fails the moon-illumination filter, so the final printout is not
the set of runs passing all six spec-named filters. -/
theorem final_printout_ignores_moon_filter :
    (print_runs [goodRow] (finalMaskArr sepWobble [goodRow]) true).runs = [1] ∧
    specSixFilters sepWobble moonUp moonBright goodRow = false := by
  decide

/-- C1 (amended): a run number appears in the final printout iff it passes
the six masks the final cell actually conjoins — pointing, zenith,
pedestal-finite, pedestal noise, cosmic-ray rate, and the pixel pulse-rate
cuts; the moon criterion is not among them. -/
theorem final_printout_eq_applied_filters (sep : ℚ → ℚ → ℚ) (rs : List RunRow) :
    (print_runs rs (finalMaskArr sep rs) true).runs
      = (rs.filter (finalPred sep)).map (·.runnumber) ∧
    ∀ n : ℤ, n ∈ (print_runs rs (finalMaskArr sep rs) true).runs ↔
      ∃ r ∈ rs, finalPred sep r = true ∧ r.runnumber = n := by
  have h : (print_runs rs (finalMaskArr sep rs) true).runs
      = (rs.filter (finalPred sep)).map (·.runnumber) := by
    show (maskSelect rs (finalMaskArr sep rs)).map _ = _
    rw [finalMaskArr_eq_map, maskSelect_map]
  refine ⟨h, fun n => ?_⟩
  rw [h]
  simp only [List.mem_map, List.mem_filter]
  tauto

/-- The seven filter masks of the notebook, as the code computes them. -/
def notebookMasks (stdFn : List ℚ → ℚ) (sep : ℚ → ℚ → ℚ)
    (rs : List RunRow) (cs : List CosmicsRow) : List (List Bool) :=
  [maskArr (sourcePred sep) rs, maskArr zenithPred rs, maskArr pedOkPred rs,
   maskArr pedStdPred rs, maskArr ratePred rs, maskArr pixRatePred rs,
   pulse30Arr stdFn sep rs cs]

/-- Conjoin a list of boolean filter masks with `&`, starting from the
all-`True` array over the table. -/
def combineMasks (rs : List RunRow) (ms : List (List Bool)) : List Bool :=
  ms.foldl andMask (rs.map (fun _ => true))

/-- C2: conjoining the seven boolean filter masks in any order yields the
same final mask and hence the same surviving set of rows; the order only
affects the diagnostic printouts between steps. -/
theorem mask_conjunction_order_independent (stdFn : List ℚ → ℚ)
    (sep : ℚ → ℚ → ℚ) (rs : List RunRow) (cs : List CosmicsRow)
    (ms : List (List Bool)) (h : ms.Perm (notebookMasks stdFn sep rs cs)) :
    combineMasks rs ms = combineMasks rs (notebookMasks stdFn sep rs cs) ∧
    maskSelect rs (combineMasks rs ms)
      = maskSelect rs (combineMasks rs (notebookMasks stdFn sep rs cs)) := by
  have he : combineMasks rs ms = combineMasks rs (notebookMasks stdFn sep rs cs) :=
    foldl_andMask_perm _ h
  exact ⟨he, by rw [he]⟩

/-- C2 witness: the reversed mask list is a permutation of the notebook's
and combines to the same final mask on a concrete table. -/
theorem mask_conjunction_order_independent_witness :
    ((notebookMasks (fun _ => 0) sepWobble [goodRow] []).reverse).Perm
      (notebookMasks (fun _ => 0) sepWobble [goodRow] []) ∧
    combineMasks [goodRow] ((notebookMasks (fun _ => 0) sepWobble [goodRow] []).reverse)
      = combineMasks [goodRow] (notebookMasks (fun _ => 0) sepWobble [goodRow] []) :=
  ⟨by decide,
   (mask_conjunction_order_independent (fun _ => 0) sepWobble [goodRow] [] _
      (by decide)).1⟩

/-- C3: each filter of the notebook is a pure threshold comparison on
(derived) columns of the runsummary table, with the thresholds the spec
states. -/
theorem filters_are_threshold_comparisons (sep : ℚ → ℚ → ℚ) (r : RunRow) :
    (sourcePred sep r = true ↔
      (35/100 < sep r.mean_ra r.mean_dec ∧ sep r.mean_ra r.mean_dec < 45/100)) ∧
    (zenithPred r = true ↔
      (0 < 90 - rad2deg r.min_altitude ∧ 90 - rad2deg r.min_altitude < 35)) ∧
    (pedStdPred r = true ↔ r.ped_charge_stddev < 2) ∧
    (ratePred r = true ↔ 3000 < r.num_cosmics / r.elapsed_time) ∧
    (pixRatePred r = true ↔
      (25 < r.cosmics_fraction_pulses_above10 * r.num_cosmics / r.elapsed_time ∧
       9/2 < r.cosmics_fraction_pulses_above30 * r.num_cosmics / r.elapsed_time)) := by
  refine ⟨?_, ?_, ?_, ?_, ?_⟩
  · simp [sourcePred]
  · simp only [zenithPred, max_zenith, min_zenith, Bool.and_eq_true, decide_eq_true_eq]
    tauto
  · simp [pedStdPred, max_ped_std]
  · simp [ratePred, rate_cosmics]
  · simp [pixRatePred, rate10Pred, rate30Pred, rate10, rate30]

/-- The masks passed to `print_runs` at the successive reporting cells of
the notebook (cells 15, 19, 30, 35 and 46/62). -/
def reportMasks (sep : ℚ → ℚ → ℚ) (rs : List RunRow) : List (List Bool) :=
  [maskArr (sourcePred sep) rs,
   andMask (andMask (maskArr (sourcePred sep) rs) (maskArr zenithPred rs))
     (maskArr pedOkPred rs),
   andMask (andMask (andMask (maskArr (sourcePred sep) rs)
     (maskArr zenithPred rs)) (maskArr pedOkPred rs)) (maskArr pedStdPred rs),
   andMask (andMask (andMask (andMask (maskArr (sourcePred sep) rs)
     (maskArr zenithPred rs)) (maskArr pedOkPred rs)) (maskArr pedStdPred rs))
     (maskArr ratePred rs),
   finalMaskArr sep rs]

/-- C4: conjoining an additional filter mask can only shrink the reported
run list, and each reporting step of the notebook lists a superset of the
runs of every later reporting step. -/
theorem report_steps_monotone (sep : ℚ → ℚ → ℚ) (rs : List RunRow) :
    (∀ (m e : List Bool) (b : Bool),
      (print_runs rs (andMask m e) b).runs ⊆ (print_runs rs m b).runs) ∧
    List.Pairwise (fun a b =>
      (print_runs rs b true).runs ⊆ (print_runs rs a true).runs)
      (reportMasks sep rs) := by
  have hsub : ∀ (m e : List Bool) (b : Bool),
      (print_runs rs (andMask m e) b).runs ⊆ (print_runs rs m b).runs := by
    intro m e b
    exact (((maskSelect_andMask_sublist rs m e).map (·.runnumber)).subset)
  refine ⟨hsub, ?_⟩
  have h21 : ∀ z p : List Bool,
      (print_runs rs (andMask (andMask (maskArr (sourcePred sep) rs) z) p) true).runs
        ⊆ (print_runs rs (maskArr (sourcePred sep) rs) true).runs :=
    fun z p => (hsub _ _ _).trans (hsub _ _ _)
  unfold reportMasks finalMaskArr
  refine List.Pairwise.cons ?_ (List.Pairwise.cons ?_ (List.Pairwise.cons ?_
    (List.Pairwise.cons ?_ (List.Pairwise.cons ?_ List.Pairwise.nil))))
  · intro x hx
    simp only [List.mem_cons, List.not_mem_nil, or_false] at hx
    rcases hx with rfl | rfl | rfl | rfl
    · exact h21 _ _
    · exact (hsub _ _ _).trans (h21 _ _)
    · exact (hsub _ _ _).trans ((hsub _ _ _).trans (h21 _ _))
    · exact (hsub _ _ _).trans ((hsub _ _ _).trans ((hsub _ _ _).trans (h21 _ _)))
  · intro x hx
    simp only [List.mem_cons, List.not_mem_nil, or_false] at hx
    rcases hx with rfl | rfl | rfl
    · exact hsub _ _ _
    · exact (hsub _ _ _).trans (hsub _ _ _)
    · exact (hsub _ _ _).trans ((hsub _ _ _).trans (hsub _ _ _))
  · intro x hx
    simp only [List.mem_cons, List.not_mem_nil, or_false] at hx
    rcases hx with rfl | rfl
    · exact hsub _ _ _
    · exact (hsub _ _ _).trans (hsub _ _ _)
  · intro x hx
    simp only [List.mem_cons, List.not_mem_nil, or_false] at hx
    subst hx
    exact hsub _ _ _
  · intro x hx
    simp at hx

/-- C5: every mask-construction step of the notebook leaves all five
in-memory tables unchanged; so does the whole filter phase.  (In this
explicit-state embedding an assignment to a table would show up as a
changed `tables` field.) -/
theorem filter_steps_preserve_tables (sep : ℚ → ℚ → ℚ) (stdFn : List ℚ → ℚ)
    (σ : NBState) :
    (stepPedOk σ).tables = σ.tables ∧
    (stepSource sep σ).tables = σ.tables ∧
    (stepZenith σ).tables = σ.tables ∧
    (stepPedStd σ).tables = σ.tables ∧
    (stepRate σ).tables = σ.tables ∧
    (stepPixRate σ).tables = σ.tables ∧
    (stepPulse30 stdFn σ).tables = σ.tables ∧
    (filterPhase sep stdFn σ).tables = σ.tables := by
  have hp : ∀ τ : NBState, (stepPulse30 stdFn τ).tables = τ.tables := fun _ => rfl
  have hx : ∀ τ : NBState, (stepPixRate τ).tables = τ.tables := fun _ => rfl
  have hr : ∀ τ : NBState, (stepRate τ).tables = τ.tables := fun _ => rfl
  have hps : ∀ τ : NBState, (stepPedStd τ).tables = τ.tables := fun _ => rfl
  have hz : ∀ τ : NBState, (stepZenith τ).tables = τ.tables := fun _ => rfl
  have hs : ∀ τ : NBState, (stepSource sep τ).tables = τ.tables := fun _ => rfl
  have hpo : ∀ τ : NBState, (stepPedOk τ).tables = τ.tables := fun _ => rfl
  refine ⟨hpo σ, hs σ, hz σ, hps σ, hr σ, hx σ, hp σ, ?_⟩
  simp only [filterPhase, hp, hx, hr, hps, hz, hs, hpo]

/-! ### Loading-phase claims -/

/-- The number of rows of a runsummary table carrying run number `n`. -/
def countRun (n : ℤ) (t : List RunRow) : ℕ :=
  (t.filter (fun r => r.runnumber == n)).length

theorem countRun_map_normalize (n : ℤ) (l : List RunRow) :
    countRun n (l.map normalizeRunRow) = countRun n l := by
  unfold countRun
  rw [List.filter_map]
  simp [Function.comp_def, normalizeRunRow]

theorem countRun_flatten (n : ℤ) (L : List (List RunRow)) :
    countRun n L.flatten = (L.map (countRun n)).sum := by
  induction L with
  | nil => rfl
  | cons l L ih =>
      simp only [List.flatten_cons, countRun, List.filter_append,
        List.length_append, List.map_cons, List.sum_cons] at *
      omega

/-- A night file containing the single run 1, with all tables present. -/
def nightA : NightFile :=
  { hasPedestalsNode := true, hasFlatfieldNode := true,
    pixwise_runsummary := [⟨1⟩], runsummary := [goodRow], cosmics := [],
    flatfield := [⟨1⟩], pedestals := [⟨1⟩] }

/-- A run row for run number 7. -/
def badRow : RunRow := { goodRow with runnumber := 7 }

/-- A night file recording run 7 that lacks the interleaved pedestals
table. -/
def badNight : NightFile :=
  { hasPedestalsNode := false, hasFlatfieldNode := true,
    pixwise_runsummary := [⟨7⟩], runsummary := [badRow], cosmics := [],
    flatfield := [⟨7⟩], pedestals := [] }

/-- C6 (counterexample): loading two night files that both record run 1
yields a concatenated runsummary table in which run 1 occurs in two rows —
loading and vertical stacking perform no deduplication. -/
theorem vstack_can_duplicate_runnumbers :
    countRun 1 (loadFiles [nightA, nightA]).runsummary = 2 ∧
    ¬ countRun 1 (loadFiles [nightA, nightA]).runsummary = 1 := by
  decide

/-- C6 (amended): stacking preserves row multiplicities: a run number
occurs in the concatenated runsummary table as many times as it occurs
across the kept files; in particular it occurs in exactly one row iff it
occurs in exactly one row across the kept files' runsummary tables. -/
theorem runsummary_row_multiplicity (files : List NightFile) (n : ℤ) :
    countRun n (loadFiles files).runsummary
      = ((files.filter keepFile).map (fun f => countRun n f.runsummary)).sum ∧
    (((files.filter keepFile).map (fun f => countRun n f.runsummary)).sum = 1 →
      countRun n (loadFiles files).runsummary = 1) := by
  have h : countRun n (loadFiles files).runsummary
      = ((files.filter keepFile).map (fun f => countRun n f.runsummary)).sum := by
    show countRun n ((files.filter keepFile).map
      (fun f => f.runsummary.map normalizeRunRow)).flatten = _
    rw [countRun_flatten, List.map_map]
    exact congrArg _ (List.map_congr_left fun f _ => countRun_map_normalize n _)
  exact ⟨h, fun h1 => h.trans h1⟩

/-- C6 witness: with a single well-formed file recording run 1 once, run 1
occurs in exactly one row of the concatenated table. -/
theorem runsummary_row_multiplicity_witness :
    (([nightA].filter keepFile).map (fun f => countRun 1 f.runsummary)).sum = 1 ∧
    countRun 1 (loadFiles [nightA]).runsummary = 1 :=
  ⟨by decide, (runsummary_row_multiplicity [nightA] 1).2 (by decide)⟩

/-- C8: a night file lacking the pedestals or flatfield table is skipped
whole: it is not among the kept files, and a run number recorded in no kept
file appears in none of the five concatenated tables. -/
theorem skipped_file_contributes_nothing (files : List NightFile)
    (f : NightFile) (n : ℤ) (_hmem : f ∈ files) (hskip : keepFile f = false)
    (honly : ∀ g ∈ files, keepFile g = true →
      n ∉ g.runsummary.map (·.runnumber) ∧
      n ∉ g.pixwise_runsummary.map (·.runnumber) ∧
      n ∉ g.cosmics.map (·.runnumber) ∧
      n ∉ g.flatfield.map (·.runnumber) ∧
      n ∉ g.pedestals.map (·.runnumber)) :
    f ∉ files.filter keepFile ∧
    n ∉ (loadFiles files).runsummary.map (·.runnumber) ∧
    n ∉ (loadFiles files).pixwise_runsummary.map (·.runnumber) ∧
    n ∉ (loadFiles files).cosmics.map (·.runnumber) ∧
    n ∉ (loadFiles files).flatfield.map (·.runnumber) ∧
    n ∉ (loadFiles files).pedestals.map (·.runnumber) := by
  refine ⟨fun hf => ?_, ?_, ?_, ?_, ?_, ?_⟩
  · exact absurd (List.mem_filter.mp hf).2 (by simp [hskip])
  · intro hn
    rcases List.mem_map.mp hn with ⟨r, hr, hrn⟩
    rcases List.mem_flatten.mp hr with ⟨l, hl, hrl⟩
    rcases List.mem_map.mp hl with ⟨g, hg, rfl⟩
    rcases List.mem_map.mp hrl with ⟨r₀, hr₀, rfl⟩
    have hgk := List.mem_filter.mp hg
    refine ((honly g hgk.1 hgk.2).1 ?_)
    exact List.mem_map.mpr ⟨r₀, hr₀, hrn⟩
  · intro hn
    rcases List.mem_map.mp hn with ⟨r, hr, hrn⟩
    rcases List.mem_flatten.mp hr with ⟨l, hl, hrl⟩
    rcases List.mem_map.mp hl with ⟨g, hg, rfl⟩
    have hgk := List.mem_filter.mp hg
    exact ((honly g hgk.1 hgk.2).2.1 (List.mem_map.mpr ⟨r, hrl, hrn⟩))
  · intro hn
    rcases List.mem_map.mp hn with ⟨r, hr, hrn⟩
    rcases List.mem_flatten.mp hr with ⟨l, hl, hrl⟩
    rcases List.mem_map.mp hl with ⟨g, hg, rfl⟩
    have hgk := List.mem_filter.mp hg
    exact ((honly g hgk.1 hgk.2).2.2.1 (List.mem_map.mpr ⟨r, hrl, hrn⟩))
  · intro hn
    rcases List.mem_map.mp hn with ⟨r, hr, hrn⟩
    rcases List.mem_flatten.mp hr with ⟨l, hl, hrl⟩
    rcases List.mem_map.mp hl with ⟨g, hg, rfl⟩
    have hgk := List.mem_filter.mp hg
    exact ((honly g hgk.1 hgk.2).2.2.2.1 (List.mem_map.mpr ⟨r, hrl, hrn⟩))
  · intro hn
    rcases List.mem_map.mp hn with ⟨r, hr, hrn⟩
    rcases List.mem_flatten.mp hr with ⟨l, hl, hrl⟩
    rcases List.mem_map.mp hl with ⟨g, hg, rfl⟩
    have hgk := List.mem_filter.mp hg
    exact ((honly g hgk.1 hgk.2).2.2.2.2 (List.mem_map.mpr ⟨r, hrl, hrn⟩))

/-- C8 witness: run 7 is recorded only in a file lacking the pedestals
table; after loading it appears in no concatenated table. -/
theorem skipped_file_contributes_nothing_witness :
    badNight ∈ [badNight] ∧ keepFile badNight = false ∧
    (7:ℤ) ∉ (loadFiles [badNight]).runsummary.map (·.runnumber) ∧
    (7:ℤ) ∉ (loadFiles [badNight]).cosmics.map (·.runnumber) :=
  ⟨by decide, by decide,
   (skipped_file_contributes_nothing [badNight] badNight 7 (by decide)
      (by decide) (by decide)).2.1,
   (skipped_file_contributes_nothing [badNight] badNight 7 (by decide)
      (by decide) (by decide)).2.2.2.1⟩

/-- C9: after loading, `num_flatfield` is never NaN — each NaN is replaced
by 0 — and no run-level filter mask reads `num_flatfield`, so changing it
changes no filter verdict: a run with NaN `num_flatfield` survives to the
final list whenever it passes the other cuts. -/
theorem num_flatfield_no_nan_after_load (files : List NightFile)
    (sep : ℚ → ℚ → ℚ) :
    (∀ r ∈ (loadFiles files).runsummary, r.num_flatfield.isSome = true) ∧
    (∀ r : RunRow, (normalizeRunRow r).num_flatfield
      = some (r.num_flatfield.getD 0)) ∧
    (∀ (r : RunRow) (v : Option ℚ),
      sourcePred sep { r with num_flatfield := v } = sourcePred sep r ∧
      zenithPred { r with num_flatfield := v } = zenithPred r ∧
      pedOkPred { r with num_flatfield := v } = pedOkPred r ∧
      pedStdPred { r with num_flatfield := v } = pedStdPred r ∧
      ratePred { r with num_flatfield := v } = ratePred r ∧
      pixRatePred { r with num_flatfield := v } = pixRatePred r ∧
      finalPred sep { r with num_flatfield := v } = finalPred sep r) := by
  refine ⟨?_, fun r => rfl, fun r v => ⟨rfl, rfl, rfl, rfl, rfl, rfl, rfl⟩⟩
  intro r hr
  rcases List.mem_flatten.mp hr with ⟨l, hl, hrl⟩
  rcases List.mem_map.mp hl with ⟨g, _, rfl⟩
  rcases List.mem_map.mp hrl with ⟨r₀, _, rfl⟩
  rfl

/-- C9 witness: the loaded row of a concrete file has a non-NaN
`num_flatfield`. -/
theorem num_flatfield_no_nan_after_load_witness :
    normalizeRunRow goodRow ∈ (loadFiles [nightA]).runsummary ∧
    (normalizeRunRow goodRow).num_flatfield.isSome = true :=
  ⟨by decide,
   (num_flatfield_no_nan_after_load [nightA] sepWobble).1
     (normalizeRunRow goodRow) (by decide)⟩

theorem zip_andMask_false (a b : List Bool) :
    ∀ q ∈ a.zip (andMask a b), q.1 = false → q.2 = false := by
  induction a generalizing b with
  | nil => simp
  | cons x a ih =>
      cases b with
      | nil => simp [andMask]
      | cons y b =>
          intro q hq h1
          rcases List.mem_cons.mp hq with rfl | hq
          · simp only at h1 ⊢
            simp [h1]
          · exact ih b q hq h1

/-- C10: `pulse30_std_cut` starts all-`True` and is cleared exactly at the
rows of the already-selected runs whose subrun-wise std dev of the
>30 p.e. pulse rate is not below the maximum; a run number outside the
selected run list keeps `True`, and conjoining the cut with the final mask
leaves every row that already fails the final mask failing. -/
theorem pulse30_cut_only_clears_selected_runs (stdFn : List ℚ → ℚ)
    (sep : ℚ → ℚ → ℚ) (rs : List RunRow) (cs : List CosmicsRow) :
    pulse30Arr stdFn sep rs cs = rs.map (pulse30Pointwise stdFn sep rs cs) ∧
    (∀ p ∈ rs.zip (pulse30Arr stdFn sep rs cs),
      (p.1.runnumber ∉ run_list sep rs → p.2 = true) ∧
      (p.2 = false ↔ ∃ run ∈ run_list sep rs, p.1.runnumber = run ∧
        ¬ std30 stdFn cs run < max_rate30_std)) ∧
    (∀ q ∈ (finalMaskArr sep rs).zip
        (andMask (finalMaskArr sep rs) (pulse30Arr stdFn sep rs cs)),
      q.1 = false → q.2 = false) := by
  refine ⟨pulse30Arr_eq_map stdFn sep rs cs, ?_, zip_andMask_false _ _⟩
  intro p hp
  rw [pulse30Arr_eq_map] at hp
  have hz : ∀ (l : List RunRow) (f : RunRow → Bool),
      l.zip (l.map f) = l.map (fun a => (a, f a)) := by
    intro l f
    induction l with
    | nil => rfl
    | cons a l ih => simp only [List.map_cons, List.zip_cons_cons, ih]
  rw [hz] at hp
  rcases List.mem_map.mp hp with ⟨r, _, rfl⟩
  constructor
  · intro hnot
    simp only [pulse30Pointwise, Bool.not_eq_true', List.any_eq_false]
    intro run hrun
    have hne : r.runnumber ≠ run := fun he => hnot (he ▸ hrun)
    simp [hne]
  · simp only [pulse30Pointwise, Bool.not_eq_false', List.any_eq_true,
      Bool.and_eq_true, beq_iff_eq, Bool.not_eq_true', decide_eq_false_iff_not]

/-- C10 witness: on a table whose only run fails the final mask, the run
list is empty and the cut stays `True` at that row. -/
theorem pulse30_cut_only_clears_selected_runs_witness :
    (goodRow, true) ∈ [goodRow].zip (pulse30Arr (fun _ => 0) sepZero [goodRow] []) ∧
    goodRow.runnumber ∉ run_list sepZero [goodRow] ∧
    (true : Bool) = true :=
  ⟨by decide, by decide,
   ((pulse30_cut_only_clears_selected_runs (fun _ => 0) sepZero [goodRow] []).2.1
      (goodRow, true) (by decide)).1 (by decide)⟩

/-! ### The reporting claim -/

theorem sorted_uniqueSorted (l : List ℤ) :
    List.Sorted (· < ·) (uniqueSorted l) := by
  have hle : List.Sorted (· ≤ ·) (uniqueSorted l) :=
    List.Pairwise.sublist (List.dedup_sublist _)
      (List.sorted_insertionSort (· ≤ ·) l)
  exact hle.lt_of_le (List.nodup_dedup _)

theorem nodup_uniqueSorted (l : List ℤ) : (uniqueSorted l).Nodup :=
  List.nodup_dedup _

theorem mem_uniqueSorted {a : ℤ} {l : List ℤ} (h : a ∈ l) :
    a ∈ uniqueSorted l :=
  List.mem_dedup.mpr ((List.perm_insertionSort (· ≤ ·) l).mem_iff.mpr h)

theorem map_fst_pairs {β : Type} (g : ℤ → β) (l : List ℤ) :
    (l.map (fun d => (d, g d))).map Prod.fst = l := by
  induction l with
  | nil => rfl
  | cons a l ih => simp only [List.map_cons, ih]

theorem sorted_byDateGroups (sel : List RunRow) :
    List.Sorted (· < ·) ((byDateGroups sel).map Prod.fst) := by
  unfold byDateGroups
  rw [map_fst_pairs]
  exact sorted_uniqueSorted _

set_option maxHeartbeats 1000000 in
theorem perm_byDateGroups (sel : List RunRow) :
    (((byDateGroups sel).map Prod.snd).flatten).Perm
      (sel.map (·.runnumber)) := by
  unfold byDateGroups
  rw [List.map_map]
  have hmm : ((uniqueSorted (sel.map (fun r => utcDateOf r.time))).map
        (Prod.snd ∘ fun d => (d, (sel.filter
          (fun r => utcDateOf r.time == d)).map (·.runnumber))))
      = ((uniqueSorted (sel.map (fun r => utcDateOf r.time))).map
        (fun d => sel.filter (fun r => utcDateOf r.time == d))).map
          (List.map (·.runnumber)) := by
    rw [List.map_map]
    rfl
  rw [hmm, ← List.map_flatten]
  refine List.Perm.map _ ?_
  refine flatten_filter_key_perm (fun r : RunRow => utcDateOf r.time) _ _
    (nodup_uniqueSorted _) ?_
  intro a ha
  exact mem_uniqueSorted (List.mem_map.mpr ⟨a, ha, rfl⟩)

theorem groups_byDateGroups (sel : List RunRow) :
    ∀ p ∈ byDateGroups sel,
      p.2 = (sel.filter (fun r => utcDateOf r.time == p.1)).map (·.runnumber) := by
  intro p hp
  rcases List.mem_map.mp hp with ⟨d, _, rfl⟩
  rfl

/-- C7: `print_runs` prints the count of `True` mask entries, the summed
elapsed time of the masked rows divided by 3600, and the run numbers of
exactly the masked rows; with `by_date`, the group dates (UTC date of the
timestamp minus half a day) are strictly increasing, every selected run is
listed exactly once across the groups, and each group holds exactly the
selected runs of its date, in row order. -/
theorem print_runs_reports_selected_runs (table : List RunRow)
    (mask : List Bool) :
    (print_runs table mask true).nRuns = mask.count true ∧
    (print_runs table mask true).hours
      = ((maskSelect table mask).map (·.elapsed_time)).sum / 3600 ∧
    (print_runs table mask true).runs
      = (maskSelect table mask).map (·.runnumber) ∧
    List.Sorted (· < ·) ((print_runs table mask true).byDate.map Prod.fst) ∧
    (((print_runs table mask true).byDate.map Prod.snd).flatten).Perm
      ((print_runs table mask true).runs) ∧
    ∀ p ∈ (print_runs table mask true).byDate,
      p.2 = ((maskSelect table mask).filter
        (fun r => utcDateOf r.time == p.1)).map (·.runnumber) := by
  have hbd : (print_runs table mask true).byDate
      = byDateGroups (maskSelect table mask) := rfl
  refine ⟨rfl, rfl, rfl, ?_, ?_, ?_⟩
  · rw [hbd]
    exact sorted_byDateGroups _
  · rw [hbd]
    exact perm_byDateGroups _
  · rw [hbd]
    exact fun p hp => groups_byDateGroups _ p hp

/-- C7 witness: evaluation on a concrete two-row table, including the
date grouping. -/
theorem print_runs_reports_selected_runs_witness :
    (print_runs [goodRow, badRow] [true, true] true).byDate = [(-1, [1, 7])] ∧
    ((-1, [1, 7]) : ℤ × List ℤ)
      ∈ (print_runs [goodRow, badRow] [true, true] true).byDate ∧
    ([1, 7] : List ℤ) = ((maskSelect [goodRow, badRow] [true, true]).filter
      (fun r => utcDateOf r.time == (-1 : ℤ))).map (·.runnumber) :=
  ⟨by decide, by decide,
   (print_runs_reports_selected_runs [goodRow, badRow] [true, true]).2.2.2.2.2
     ((-1 : ℤ), ([1, 7] : List ℤ)) (by decide)⟩

end DataSelection
